import Mathlib

/-!
Shallow embedding of the DeviceHub hub: the poll variant and the push variant
of `src/server.js`, the companion variants in `src/unnamed/part_001` …
`src/unnamed/part_004`, and the encoding helpers relevant to the agent
(`src/agent.ps1`).

Modelling conventions: JS `Map` objects are insertion-ordered association
lists; JS strings are `String`; timestamps (`Date.now()`) are `Nat`; the JS
truthiness idiom `a || b` on strings is `jsOr`; absent headers, query
parameters and body fields are the empty string or `Option.none` as noted at
each definition.
-/

set_option maxRecDepth 8192

namespace DeviceHub

/-- JS `a || b` for string values: `b` exactly when `a` is the empty string
(the only falsy string). -/
def jsOr (a b : String) : String := if a = "" then b else a

/-- JS `String.prototype.trim`: strip leading and trailing whitespace. -/
def jsTrim (s : String) : String :=
  ⟨((s.data.dropWhile Char.isWhitespace).reverse.dropWhile Char.isWhitespace).reverse⟩

/-- JS `Map.prototype.get` on an insertion-ordered association list. -/
def mapGet {α : Type} : List (String × α) → String → Option α
  | [], _ => none
  | p :: t, k => if p.1 = k then some p.2 else mapGet t k

/-- JS `Map.prototype.set`: replace the entry in place when the key is
present, append otherwise. -/
def mapSet {α : Type} : List (String × α) → String → α → List (String × α)
  | [], k, v => [(k, v)]
  | p :: t, k, v => if p.1 = k then (k, v) :: t else p :: mapSet t k v

/-- JS `Map.prototype.delete`. -/
def mapDelete {α : Type} : List (String × α) → String → List (String × α)
  | [], _ => []
  | p :: t, k => if p.1 = k then mapDelete t k else p :: mapDelete t k

theorem mapGet_mapSet_self {α : Type} (m : List (String × α)) (k : String) (v : α) :
    mapGet (mapSet m k v) k = some v := by
  induction m with
  | nil => simp [mapSet, mapGet]
  | cons p t ih =>
    by_cases hp : p.1 = k
    · simp [mapSet, hp, mapGet]
    · simp [mapSet, hp, mapGet, ih]

theorem mapGet_mapSet_ne {α : Type} (m : List (String × α)) {k k' : String} (v : α)
    (h : k' ≠ k) : mapGet (mapSet m k v) k' = mapGet m k' := by
  have hk : ¬ k = k' := fun hh => h hh.symm
  induction m with
  | nil => simp [mapSet, mapGet, hk]
  | cons p t ih =>
    by_cases hp : p.1 = k
    · have hpk : ¬ p.1 = k' := by rw [hp]; exact hk
      simp [mapSet, hp, mapGet, hk, hpk]
    · simp [mapSet, hp, mapGet, ih]

theorem mapGet_mapDelete_self {α : Type} (m : List (String × α)) (k : String) :
    mapGet (mapDelete m k) k = none := by
  induction m with
  | nil => simp [mapDelete, mapGet]
  | cons p t ih =>
    by_cases hp : p.1 = k
    · simp [mapDelete, hp, ih]
    · simp [mapDelete, hp, mapGet, ih]

theorem mem_mapDelete {α : Type} {m : List (String × α)} {k : String} {p : String × α}
    (h : p ∈ mapDelete m k) : p ∈ m ∧ p.1 ≠ k := by
  induction m with
  | nil => simp [mapDelete] at h
  | cons q t ih =>
    by_cases hq : q.1 = k
    · simp only [mapDelete, if_pos hq] at h
      exact ⟨List.mem_cons_of_mem _ (ih h).1, (ih h).2⟩
    · simp only [mapDelete, if_neg hq] at h
      rcases List.mem_cons.1 h with rfl | hm
      · exact ⟨List.mem_cons_self _ _, hq⟩
      · exact ⟨List.mem_cons_of_mem _ (ih hm).1, (ih hm).2⟩

/-! ### Poll-variant command queues (`src/server.js` lines 18, 21-30) -/

/-- The `queues` map: `deviceId -> [commands...]`. -/
abbrev Queues := List (String × List String)

/-- `enqueue(deviceId, command)` (`src/server.js` lines 21-24): create the
array if absent, then push the command at the back. -/
def enqueue (qs : Queues) (deviceId command : String) : Queues :=
  let qs' := if (mapGet qs deviceId).isSome then qs else mapSet qs deviceId []
  mapSet qs' deviceId (((mapGet qs' deviceId).getD []) ++ [command])

/-- `dequeue(deviceId)` (`src/server.js` lines 25-30): return `null` when the
queue is absent or empty, else shift off the oldest command.  The function is
total (it answers immediately from in-memory state; it never blocks). -/
def dequeue (qs : Queues) (deviceId : String) : Option String × Queues :=
  match mapGet qs deviceId with
  | none => (none, qs)
  | some [] => (none, qs)
  | some (c :: rest) => (some c, mapSet qs deviceId rest)

/-- Iterated `enqueue` of a batch of commands for one device. -/
def enqueueAll (qs : Queues) (id : String) (cs : List String) : Queues :=
  cs.foldl (fun s c => enqueue s id c) qs

/-- The results of `n` successive `dequeue(id)` calls, threading the state. -/
def dequeueList (qs : Queues) (id : String) : Nat → List (Option String)
  | 0 => []
  | n + 1 => (dequeue qs id).1 :: dequeueList (dequeue qs id).2 id n

theorem enqueue_get_self (qs : Queues) (id c : String) :
    mapGet (enqueue qs id c) id = some ((mapGet qs id).getD [] ++ [c]) := by
  unfold enqueue
  cases h : mapGet qs id with
  | none => simp [h, mapGet_mapSet_self]
  | some q => simp [h, mapGet_mapSet_self]

theorem enqueueAll_get_self (id : String) (cs : List String) :
    ∀ (qs : Queues) (q : List String), mapGet qs id = some q →
      mapGet (enqueueAll qs id cs) id = some (q ++ cs) := by
  induction cs with
  | nil => intro qs q h; simpa [enqueueAll] using h
  | cons c cs ih =>
    intro qs q h
    have h1 : mapGet (enqueue qs id c) id = some (q ++ [c]) := by
      rw [enqueue_get_self, h]; rfl
    have := ih (enqueue qs id c) (q ++ [c]) h1
    simpa [enqueueAll, List.foldl_cons, List.append_assoc] using this

theorem dequeueList_drain (id : String) :
    ∀ (q : List String) (qs : Queues), mapGet qs id = some q →
      dequeueList qs id (q.length + 1) = q.map some ++ [none] := by
  intro q
  induction q with
  | nil => intro qs h; simp [dequeueList, dequeue, h]
  | cons c rest ih =>
    intro qs h
    have hd : dequeue qs id = (some c, mapSet qs id rest) := by
      simp [dequeue, h]
    have hr : mapGet (mapSet qs id rest) id = some rest := mapGet_mapSet_self qs id rest
    have ht := ih (mapSet qs id rest) hr
    show dequeueList qs id (rest.length + 1 + 1) = _
    rw [dequeueList, hd]
    simpa using ht

/-- Claim C2: starting from a state in which device `id` has no pending
commands, enqueueing `c1..cn` and then dequeueing `n + 1` times yields
`c1..cn` in FIFO order followed by the explicit empty result `none`.
`dequeue` is a total function on in-memory state, so no call blocks. -/
theorem fifo_order (qs : Queues) (id : String) (cs : List String)
    (h : mapGet qs id = none ∨ mapGet qs id = some []) :
    dequeueList (enqueueAll qs id cs) id (cs.length + 1) = cs.map some ++ [none] := by
  cases cs with
  | nil =>
    rcases h with h | h <;> simp [enqueueAll, dequeueList, dequeue, h]
  | cons c cs =>
    have h1 : mapGet (enqueue qs id c) id = some [c] := by
      rcases h with h | h <;> (rw [enqueue_get_self, h]; rfl)
    have h2 : mapGet (enqueueAll (enqueue qs id c) id cs) id = some (c :: cs) := by
      simpa using enqueueAll_get_self id cs (enqueue qs id c) [c] h1
    have h3 := dequeueList_drain id (c :: cs) (enqueueAll (enqueue qs id c) id cs) h2
    simpa [enqueueAll, List.foldl_cons] using h3

/-- Witness for C2 at a concrete input: two commands queued for a fresh
device come back in order, and the third dequeue is empty. -/
theorem fifo_order_witness :
    dequeueList (enqueueAll [] "PC1" ["notepad.exe", "calc.exe"]) "PC1" 3 =
      [some "notepad.exe", some "calc.exe", none] :=
  fifo_order [] "PC1" ["notepad.exe", "calc.exe"] (Or.inl rfl)

/-! ### Poll-variant device registry (`src/server.js` lines 19, 31-50) -/

/-- A `devices` map entry: `{ id, ip, hostname, username, os, lastSeen }`. -/
structure Device where
  id : String
  ip : String
  hostname : String
  username : String
  os : String
  lastSeen : Nat
deriving Repr, DecidableEq

/-- The metadata fields of a heartbeat body after destructuring
`{ deviceId, hostname, username, os }`: each field is either absent
(`none`, covering JS `undefined` and `null`, both of which `??` skips)
or a string value. -/
structure Heartbeat where
  hostname : Option String
  username : Option String
  os : Option String
deriving Repr, DecidableEq

/-- The `devices` map: `deviceId -> Device`. -/
abbrev Devices := List (String × Device)

/-- `markSeen(id, req, partial)` from `src/server.js` lines 38-50.  `reqIp` is
the value of `clientIp(req)`; `now` is `Date.now()`.  Each metadata field is
computed as `(partial.f ?? existing.f)?.toString() || ""`; `?.toString()` is
the identity on the string that `??` produced, and `|| ""` maps the empty
string to itself, so both appear below only through `jsOr _ ""`. -/
def markSeen (devices : Devices) (id reqIp : String) (part : Heartbeat) (now : Nat) :
    Devices :=
  let ip := jsOr reqIp (jsOr (((mapGet devices id).map Device.ip).getD "") "")
  let existing := (mapGet devices id).getD ⟨id, "", "", "", "", 0⟩
  mapSet devices id
    { id := id
      ip := jsOr ip existing.ip
      hostname := jsOr (part.hostname.getD existing.hostname) ""
      username := jsOr (part.username.getD existing.username) ""
      os := jsOr (part.os.getD existing.os) ""
      lastSeen := now }

/-- `markSeen(id, req, partial)` from `src/unnamed/part_003` lines 34-46,
embedded separately so that its agreement with the `src/server.js` version is
a statement about two definitions, not one. -/
def markSeen_v3 (devices : Devices) (id reqIp : String) (part : Heartbeat) (now : Nat) :
    Devices :=
  let ip := jsOr reqIp (jsOr (((mapGet devices id).map Device.ip).getD "") "")
  let existing := (mapGet devices id).getD ⟨id, "", "", "", "", 0⟩
  mapSet devices id
    { id := id
      ip := jsOr ip existing.ip
      hostname := jsOr (part.hostname.getD existing.hostname) ""
      username := jsOr (part.username.getD existing.username) ""
      os := jsOr (part.os.getD existing.os) ""
      lastSeen := now }

theorem jsOr_empty_right (s : String) : jsOr s "" = s := by
  unfold jsOr
  by_cases h : s = "" <;> simp [h]

/-- Claim C3: `markSeen` (the `recordContact` of the spec) upserts the record
for `id`: it is a total function (no error path), it always stamps
`lastSeen := now`, and every metadata field absent from the heartbeat body
keeps its previous value.  The hypothesis fixes the previous record `d`; the
upsert also succeeds when no record exists (then the defaults apply). -/
theorem markSeen_frame (devices : Devices) (id reqIp : String) (part : Heartbeat)
    (now : Nat) (d : Device) (h : mapGet devices id = some d) :
    ((mapGet (markSeen devices id reqIp part now) id).map Device.lastSeen = some now) ∧
    (part.hostname = none →
      (mapGet (markSeen devices id reqIp part now) id).map Device.hostname = some d.hostname) ∧
    (part.username = none →
      (mapGet (markSeen devices id reqIp part now) id).map Device.username = some d.username) ∧
    (part.os = none →
      (mapGet (markSeen devices id reqIp part now) id).map Device.os = some d.os) := by
  unfold markSeen
  rw [h]
  simp only [mapGet_mapSet_self, Option.map_some, Option.getD_some]
  refine ⟨rfl, ?_, ?_, ?_⟩
  · intro hh; rw [hh]; simp [jsOr_empty_right]
  · intro hh; rw [hh]; simp [jsOr_empty_right]
  · intro hh; rw [hh]; simp [jsOr_empty_right]

/-- Witness for C3: a device first heartbeats `hostname := "A"`, then
contacts again with an empty metadata body; the hostname stays `"A"` and
`lastSeen` advances to the new time. -/
theorem markSeen_frame_witness :
    ((mapGet (markSeen (markSeen [] "PC1" "10.0.0.5" ⟨some "A", none, none⟩ 100)
        "PC1" "10.0.0.5" ⟨none, none, none⟩ 200) "PC1").map Device.lastSeen = some 200) ∧
    ((mapGet (markSeen (markSeen [] "PC1" "10.0.0.5" ⟨some "A", none, none⟩ 100)
        "PC1" "10.0.0.5" ⟨none, none, none⟩ 200) "PC1").map Device.hostname = some "A") := by
  have h0 : mapGet (markSeen [] "PC1" "10.0.0.5" ⟨some "A", none, none⟩ 100) "PC1" =
      some ⟨"PC1", "10.0.0.5", "A", "", "", 100⟩ := by rfl
  have h := markSeen_frame (markSeen [] "PC1" "10.0.0.5" ⟨some "A", none, none⟩ 100)
    "PC1" "10.0.0.5" ⟨none, none, none⟩ 200 ⟨"PC1", "10.0.0.5", "A", "", "", 100⟩ h0
  exact ⟨h.1, h.2.1 rfl⟩

/-- Claim C9: the `markSeen` of `src/server.js` (lines 38-50) and the
`markSeen` of `src/unnamed/part_003` (lines 34-46) are extensionally equal on
every state, device id, request address, heartbeat metadata body (including
bodies carrying explicit empty-string fields) and timestamp. -/
theorem markSeen_eq_markSeen_v3 (devices : Devices) (id reqIp : String)
    (part : Heartbeat) (now : Nat) :
    markSeen devices id reqIp part now = markSeen_v3 devices id reqIp part now := rfl

/-! ### Poll-variant device listing and deletion (`src/server.js` lines 10, 118-136) -/

/-- `ONLINE_WINDOW_MS` (`src/server.js` line 10). -/
def ONLINE_WINDOW_MS : Int := 30000

/-- The per-record online flag of `GET /api/devices`:
`now - info.lastSeen <= ONLINE_WINDOW_MS` in JS number arithmetic. -/
def onlineFlag (now : Nat) (d : Device) : Bool :=
  decide ((now : Int) - (d.lastSeen : Int) ≤ ONLINE_WINDOW_MS)

/-- `GET /api/devices` (`src/server.js` lines 118-127): annotate every stored
record with its online flag, then sort newest-first by `lastSeen`
(comparator `(a, b) => b.lastSeen - a.lastSeen`). -/
def listDevices (devices : Devices) (now : Nat) : List (Device × Bool) :=
  (devices.map (fun p => (p.2, onlineFlag now p.2))).mergeSort
    (fun a b => decide (b.1.lastSeen ≤ a.1.lastSeen))

/-- Claim C4: the device list is a permutation of the stored records, each
annotated online iff `now − lastSeen ≤ 30000` ms; one millisecond inside the
window is online and one millisecond beyond it is offline; and the returned
list is ordered by `lastSeen` descending. -/
theorem devices_online_window (devices : Devices) (now : Nat) :
    List.Pairwise (fun a b => b.1.lastSeen ≤ a.1.lastSeen) (listDevices devices now) ∧
    (listDevices devices now).Perm (devices.map (fun p => (p.2, onlineFlag now p.2))) ∧
    (∀ e ∈ listDevices devices now,
        e.2 = true ↔ (now : Int) - (e.1.lastSeen : Int) ≤ ONLINE_WINDOW_MS) ∧
    (∀ d : Device,
        ((now : Int) - (d.lastSeen : Int) = ONLINE_WINDOW_MS - 1 → onlineFlag now d = true) ∧
        ((now : Int) - (d.lastSeen : Int) = ONLINE_WINDOW_MS + 1 → onlineFlag now d = false)) := by
  refine ⟨?_, ?_, ?_, ?_⟩
  · have hs := @List.sorted_mergeSort (Device × Bool)
      (fun a b => decide (b.1.lastSeen ≤ a.1.lastSeen))
      (fun a b c h1 h2 => by
        simp only [decide_eq_true_eq] at h1 h2 ⊢
        exact le_trans h2 h1)
      (fun a b => by
        simp only [Bool.or_eq_true, decide_eq_true_eq]
        exact Nat.le_total _ _)
      (devices.map (fun p => (p.2, onlineFlag now p.2)))
    exact hs.imp (fun h => of_decide_eq_true h)
  · exact List.mergeSort_perm _ _
  · intro e he
    have hm : e ∈ devices.map (fun p => (p.2, onlineFlag now p.2)) :=
      List.mem_mergeSort.1 he
    rcases List.mem_map.1 hm with ⟨p, _, rfl⟩
    simp [onlineFlag]
  · intro d
    constructor <;> intro h <;> simp only [onlineFlag, ONLINE_WINDOW_MS] at h ⊢ <;>
      simp only [decide_eq_true_eq, decide_eq_false_iff_not] <;> omega

/-- The whole in-memory state of the poll variant (`src/server.js` lines
18-19). -/
structure PollState where
  queues : Queues
  devices : Devices
deriving Repr, DecidableEq

/-- `DELETE /api/devices/:deviceId` (`src/server.js` lines 130-136):
`devices.delete(id); queues.delete(id)` within one handler invocation; the
single-threaded event loop admits no interleaving point between the two
deletes, so callers observe them together. -/
def removeDevice (st : PollState) (id : String) : PollState :=
  { queues := mapDelete st.queues id, devices := mapDelete st.devices id }

/-- Claim C5: after `removeDevice` both the record and the queue of `id` are
gone in the very next state: a `dequeue(id)` returns the empty result, the
queue map has no entry, the device map has no entry, and the device list
omits the device.  The hypothesis is the registry invariant that every stored
record carries the id it is keyed under (which `markSeen` maintains). -/
theorem remove_clears (st : PollState) (id : String) (now : Nat)
    (hinv : ∀ p ∈ st.devices, (p.2 : Device).id = p.1) :
    (dequeue (removeDevice st id).queues id).1 = none ∧
    mapGet (removeDevice st id).queues id = none ∧
    mapGet (removeDevice st id).devices id = none ∧
    (∀ e ∈ listDevices (removeDevice st id).devices now, e.1.id ≠ id) := by
  have hq : mapGet (mapDelete st.queues id) id = none := mapGet_mapDelete_self _ _
  refine ⟨?_, hq, mapGet_mapDelete_self _ _, ?_⟩
  · simp [removeDevice, dequeue, hq]
  · intro e he
    have hm : e ∈ (mapDelete st.devices id).map (fun p => (p.2, onlineFlag now p.2)) :=
      List.mem_mergeSort.1 he
    rcases List.mem_map.1 hm with ⟨p, hp, rfl⟩
    rcases mem_mapDelete hp with ⟨hmem, hne⟩
    simpa [hinv p hmem] using hne

/-- Witness for C5 at a concrete input: one device with one queued command is
removed; its queue answers empty and the listing is empty. -/
theorem remove_clears_witness :
    (dequeue (removeDevice ⟨enqueue [] "PC1" "notepad.exe",
        markSeen [] "PC1" "10.0.0.5" ⟨none, none, none⟩ 5⟩ "PC1").queues "PC1").1 = none ∧
    mapGet (removeDevice ⟨enqueue [] "PC1" "notepad.exe",
        markSeen [] "PC1" "10.0.0.5" ⟨none, none, none⟩ 5⟩ "PC1").queues "PC1" = none ∧
    mapGet (removeDevice ⟨enqueue [] "PC1" "notepad.exe",
        markSeen [] "PC1" "10.0.0.5" ⟨none, none, none⟩ 5⟩ "PC1").devices "PC1" = none ∧
    (∀ e ∈ listDevices (removeDevice ⟨enqueue [] "PC1" "notepad.exe",
        markSeen [] "PC1" "10.0.0.5" ⟨none, none, none⟩ 5⟩ "PC1").devices 10,
      e.1.id ≠ "PC1") :=
  remove_clears ⟨enqueue [] "PC1" "notepad.exe",
    markSeen [] "PC1" "10.0.0.5" ⟨none, none, none⟩ 5⟩ "PC1" 10 (by decide)

/-! ### Operator authentication (`src/server.js` lines 11, 53-59) -/

/-- `requireAdmin` (`src/server.js` lines 53-59; identical in
`src/unnamed/part_001` lines 65-70) as the Boolean "access granted".
`xAdminToken` and `authorization` are the raw header values, with `""` for an
absent header (the JS `||` chain treats `undefined` and `""` alike);
`adminToken` is `ADMIN_TOKEN`, already `.trim()`ed at startup (line 11).
Granted means `next()` is called; otherwise the route answers 401. -/
def requireAdmin (adminToken xAdminToken authorization : String) : Bool :=
  let h := jsTrim (jsOr (jsOr xAdminToken authorization) "")
  let token := if h.startsWith "Bearer " then h.drop 7 else h
  (adminToken != "") && (token == adminToken)

/-- The credential a request presents, as the spec describes it: the header
value (`x-admin-token` first, else `authorization`), surrounding whitespace
trimmed, with an optional `"Bearer "` marker stripped. -/
def presentedToken (xAdminToken authorization : String) : String :=
  let h := jsTrim (jsOr (jsOr xAdminToken authorization) "")
  if h.startsWith "Bearer " then h.drop 7 else h

/-- Claim C6: access to a protected route is granted iff a token is
configured and the presented credential (header value, optional `"Bearer "`
prefix stripped) equals it; with no configured token every request is
rejected with 401 — the middleware fails closed. -/
theorem requireAdmin_grants_iff (adminToken xAdminToken authorization : String) :
    (requireAdmin adminToken xAdminToken authorization = true ↔
      (adminToken ≠ "" ∧ presentedToken xAdminToken authorization = adminToken)) ∧
    (adminToken = "" → requireAdmin adminToken xAdminToken authorization = false) := by
  constructor
  · simp [requireAdmin, presentedToken, Bool.and_eq_true, bne_iff_ne, beq_iff_eq]
  · intro h
    simp [requireAdmin, h]

/-! ### Push variant (`src/server.js` lines 392-473, `src/unnamed/part_002`,
`src/unnamed/part_004`) -/

/-- A `ws` socket as the command route observes it: an opaque handle and the
`readyState` field (the `ws` library has `OPEN = 1`). -/
structure Conn where
  handle : Nat
  readyState : Nat
deriving Repr, DecidableEq

/-- `ws.OPEN` of the `ws` library. -/
def WS_OPEN : Nat := 1

/-- Push-variant responses of `POST /api/command` (`src/server.js` lines
416-431; same code in `src/unnamed/part_004` lines 25-40). -/
inductive PushCmdResult where
  | badRequest
  | notConnected (deviceId : String)
  | sent (deviceId command : String)
deriving Repr, DecidableEq

/-- `POST /api/command`, push variant: the HTTP outcome, the connection map
after the call, and the payloads written to live sockets (`ws.send`).  The
variant has no queues at all — a command either goes to an open socket now or
is dropped with the 404.  (The `try/catch` 500 branch models a throwing
`ws.send`; it is unreachable from the 404 path proved about below.) -/
def apiCommandPush (conns : List (String × Conn)) (deviceId command : String) :
    PushCmdResult × List (String × Conn) × List (Nat × String) :=
  if deviceId = "" ∨ command = "" then (.badRequest, conns, [])
  else
    match mapGet conns deviceId with
    | none => (.notConnected deviceId, conns, [])
    | some ws =>
      if ws.readyState ≠ WS_OPEN then (.notConnected deviceId, conns, [])
      else (.sent deviceId command, conns, [(ws.handle, command)])

/-- Claim C8: a push-variant command send naming a device that is absent from
the live-connection map, or whose socket is not `OPEN`, answers the 404
"not connected" error, sends nothing, and leaves the connection map (the only
state the variant has — there is no queue) unchanged. -/
theorem push_command_not_connected (conns : List (String × Conn))
    (deviceId command : String) (hid : deviceId ≠ "") (hcmd : command ≠ "")
    (h : mapGet conns deviceId = none ∨
         ∃ ws, mapGet conns deviceId = some ws ∧ ws.readyState ≠ WS_OPEN) :
    apiCommandPush conns deviceId command = (.notConnected deviceId, conns, []) := by
  unfold apiCommandPush
  rw [if_neg (by tauto)]
  rcases h with h | ⟨ws, h, hws⟩
  · rw [h]
  · rw [h]
    simp [hws]

/-- Witness for C8: a socket stored under `"PC1"` with `readyState = 3`
(CLOSED) makes the send fail with the 404 outcome and no side effect. -/
theorem push_command_not_connected_witness :
    apiCommandPush [("PC1", ⟨7, 3⟩)] "PC1" "calc.exe" =
      (.notConnected "PC1", [("PC1", ⟨7, 3⟩)], []) :=
  push_command_not_connected [("PC1", ⟨7, 3⟩)] "PC1" "calc.exe"
    (by decide) (by decide) (Or.inr ⟨⟨7, 3⟩, by decide, by decide⟩)

/-- Lower-case hex digits, as produced by `Buffer.toString("hex")`. -/
def hexDigit (n : Nat) : Char :=
  if n < 10 then Char.ofNat (48 + n) else Char.ofNat (87 + n)

/-- `crypto.randomBytes(k).toString("hex")`. -/
def bytesToHex (bs : List Nat) : String :=
  ⟨bs.flatMap (fun b => [hexDigit (b / 16), hexDigit (b % 16)])⟩

/-- One inbound upgrade request of the push variant (`src/server.js` lines
452-469): the observable inputs of the handler.  `deviceIdQuery` is
`parsed.query.deviceId || ""`; `xForwardedFor` and `remoteAddress` are `""`
when absent; `randBytes` are the three bytes `crypto.randomBytes(3)` drew. -/
structure UpgradeReq where
  deviceIdQuery : String
  xForwardedFor : String
  remoteAddress : String
  randBytes : List Nat
deriving Repr, DecidableEq

/-- The identifier the upgrade handler assigns: the trimmed `deviceId` query
value if non-empty, else the forwarded-for/remote address (or `"unknown"`)
followed by `"-"` and the random hex suffix. -/
def upgradeId (r : UpgradeReq) : String :=
  let id := jsTrim r.deviceIdQuery
  if id ≠ "" then id
  else jsOr r.xForwardedFor (jsOr r.remoteAddress "unknown") ++ "-" ++ bytesToHex r.randBytes

inductive UpgradeOutcome where
  | accepted (id : String)
  | rejected
deriving Repr, DecidableEq

/-- The push variant of `src/server.js` never rejects an upgrade: it always
reaches `wss.handleUpgrade` and emits `connection` under `upgradeId`.  (The
older `src/unnamed/part_002` variant instead answered 400 on a missing id.) -/
def handleUpgrade (r : UpgradeReq) : UpgradeOutcome := .accepted (upgradeId r)

/-- The identifiers assigned by a sequence of upgrade requests. -/
def assignedIds (rs : List UpgradeReq) : List String := rs.map upgradeId

/-- Counterexample to C7 as stated: the synthesized identifier is **not**
"never previously assigned".  `crypto.randomBytes(3)` can repeat a draw (the
code checks nothing); a second id-less upgrade from the same reported address
with the same three random bytes is assigned exactly the id already assigned
before. -/
theorem upgrade_id_reused :
    (UpgradeReq.deviceIdQuery ⟨"", "203.0.113.7", "", [171, 193, 35]⟩ = "") ∧
    upgradeId ⟨"", "203.0.113.7", "", [171, 193, 35]⟩ ∈
      assignedIds [⟨"", "203.0.113.7", "", [171, 193, 35]⟩] := by
  constructor
  · rfl
  · exact List.mem_singleton.2 rfl

/-- Claim C7 (amended): an id-less upgrade is still accepted — never
rejected — under the synthesized identifier `address ++ "-" ++ hex suffix`,
which is non-empty; the identifier is fresh only when the address/random-
suffix pair differs from every earlier one (no uniqueness check exists). -/
theorem upgrade_fallback_id (r : UpgradeReq) (h : jsTrim r.deviceIdQuery = "") :
    handleUpgrade r = .accepted (upgradeId r) ∧
    upgradeId r =
      jsOr r.xForwardedFor (jsOr r.remoteAddress "unknown") ++ "-" ++ bytesToHex r.randBytes ∧
    upgradeId r ≠ "" := by
  have hid : upgradeId r =
      jsOr r.xForwardedFor (jsOr r.remoteAddress "unknown") ++ "-" ++ bytesToHex r.randBytes := by
    unfold upgradeId
    rw [h]
    simp
  refine ⟨rfl, hid, ?_⟩
  intro hempty
  rw [hid] at hempty
  have hlen := congrArg String.length hempty
  rw [String.length_append, String.length_append] at hlen
  have hone : String.length "-" = 1 := rfl
  have hzero : String.length "" = 0 := rfl
  omega

/-- Witness for the amended C7: all inputs absent — the id becomes
`"unknown-000000"`. -/
theorem upgrade_fallback_id_witness :
    handleUpgrade ⟨"", "", "", [0, 0, 0]⟩ = .accepted (upgradeId ⟨"", "", "", [0, 0, 0]⟩) ∧
    upgradeId ⟨"", "", "", [0, 0, 0]⟩ =
      jsOr "" (jsOr "" "unknown") ++ "-" ++ bytesToHex [0, 0, 0] ∧
    upgradeId ⟨"", "", "", [0, 0, 0]⟩ ≠ "" :=
  upgrade_fallback_id ⟨"", "", "", [0, 0, 0]⟩ (by decide)

/-- Push-variant connection-map events (`src/server.js` lines 438-450): a
`connection` event runs `devices.set(id, ws)` — replacing, not merging, any
previous entry — and the `close` handler of a socket accepted under `id` runs
`devices.delete(id)` unconditionally, never checking whether the closing
socket (the second component) is still the one stored. -/
inductive PushEvent where
  | connect (id : String) (c : Nat)
  | closeEvt (id : String) (c : Nat)
deriving Repr, DecidableEq

/-- One event applied to the live-connection map. -/
def pushStep (conns : List (String × Nat)) : PushEvent → List (String × Nat)
  | .connect id c => mapSet conns id c
  | .closeEvt id _ => mapDelete conns id

/-- A whole event trace applied in order. -/
def pushRun (conns : List (String × Nat)) (es : List PushEvent) : List (String × Nat) :=
  es.foldl pushStep conns

/-- Counterexample to C10 as stated: device `"PC1"` connects as socket 1,
reconnects as socket 2 (the entry is replaced), then the superseded socket 1
fires `close`.  The claim says the identifier still maps to the newer open
socket 2; in fact the unconditional `devices.delete(id)` has removed the
entry altogether. -/
theorem reconnect_then_stale_close :
    mapGet (pushRun [] [.connect "PC1" 1, .connect "PC1" 2]) "PC1" = some 2 ∧
    mapGet (pushRun [] [.connect "PC1" 1, .connect "PC1" 2, .closeEvt "PC1" 1]) "PC1" = none ∧
    ¬ mapGet (pushRun [] [.connect "PC1" 1, .connect "PC1" 2, .closeEvt "PC1" 1]) "PC1"
        = some 2 := by
  refine ⟨rfl, rfl, ?_⟩
  intro h
  simp [pushRun, pushStep, mapGet_mapDelete_self] at h

/-- Claim C10 (amended): reconnecting under the same identifier replaces the
entry with the newer socket, but any subsequent `close` event delivered for
that identifier — including the close of the superseded older socket —
removes the identifier unconditionally, leaving it mapped to nothing. -/
theorem push_close_unconditional (conns : List (String × Nat)) (id : String) (c1 c2 : Nat) :
    mapGet (pushStep (pushStep conns (.connect id c1)) (.connect id c2)) id = some c2 ∧
    mapGet (pushStep (pushStep (pushStep conns (.connect id c1)) (.connect id c2))
        (.closeEvt id c1)) id = none :=
  ⟨mapGet_mapSet_self _ _ _, mapGet_mapDelete_self _ _⟩

/-! ### PowerShell script encoding (`src/server.js` lines 98-115) and the
tagged format of the agent (`src/agent.ps1` lines 40-50) -/

/-- `script.replace(/\r\n/g, "\n")`: global left-to-right non-overlapping
replacement of the two-character sequence CR LF by LF. -/
def normalizeNewlines : List Char → List Char
  | [] => []
  | [c] => [c]
  | c1 :: c2 :: rest =>
      if c1 = '\r' ∧ c2 = '\n' then '\n' :: normalizeNewlines rest
      else c1 :: normalizeNewlines (c2 :: rest)

/-- Whether the character list contains the sequence CR LF. -/
def hasCRLF : List Char → Bool
  | c1 :: c2 :: rest => decide (c1 = '\r' ∧ c2 = '\n') || hasCRLF (c2 :: rest)
  | _ => false

/-- The UTF-16 code units of one Unicode scalar value (a surrogate pair above
the basic multilingual plane). -/
def utf16Units (n : Nat) : List Nat :=
  if n < 0x10000 then [n]
  else [0xD800 + (n - 0x10000) / 1024, 0xDC00 + (n - 0x10000) % 1024]

/-- The two little-endian bytes of one UTF-16 code unit. -/
def unitBytesLE (u : Nat) : List Nat := [u % 256, u / 256]

/-- `Buffer.from(s, "utf16le")`: the UTF-16 code units of the string, each as
two little-endian bytes. -/
def utf16leBytes (cps : List Nat) : List Nat :=
  (cps.flatMap utf16Units).flatMap unitBytesLE

/-- The base64 alphabet character of a 6-bit value, as used by
`Buffer.toString("base64")`. -/
def base64Char (n : Nat) : Char :=
  Char.ofNat (if n < 26 then 65 + n else if n < 52 then 71 + n else if n < 62 then n - 4
    else if n = 62 then 43 else 47)

/-- RFC 4648 base64 with `=` padding, as produced by
`Buffer.toString("base64")`. -/
def base64Encode : List Nat → List Char
  | [] => []
  | [a] => [base64Char (a / 4), base64Char (a % 4 * 16), '=', '=']
  | [a, b] => [base64Char (a / 4), base64Char (a % 4 * 16 + b / 16), base64Char (b % 16 * 4), '=']
  | a :: b :: c :: rest =>
      base64Char (a / 4) :: base64Char (a % 4 * 16 + b / 16) ::
        base64Char (b % 16 * 4 + c / 64) :: base64Char (c % 64) :: base64Encode rest

/-- `psEncodedCommand(script)` (`src/server.js` lines 98-102): normalize
CR LF to LF, then base64 of the UTF-16LE bytes. -/
def psEncodedCommand (script : String) : String :=
  ⟨base64Encode (utf16leBytes ((normalizeNewlines script.data).map Char.toNat))⟩

/-- The fixed head of the command text built at `src/server.js` line 112
(note the trailing space before the base64 block). -/
def psCommandHead : String :=
  "powershell -NoLogo -NoProfile -ExecutionPolicy Bypass -EncodedCommand "

/-- The command text `POST /api/ps` enqueues. -/
def psQueuedCommand (script : String) : String := psCommandHead ++ psEncodedCommand script

inductive ApiPsResult where
  | ok
  | badRequest
deriving Repr, DecidableEq

/-- `POST /api/ps` (`src/server.js` lines 105-115): validate, then enqueue
the `-EncodedCommand` text for the device. -/
def apiPs (qs : Queues) (deviceId script : String) : ApiPsResult × Queues :=
  if deviceId = "" ∨ script = "" then (.badRequest, qs)
  else (.ok, enqueue qs deviceId (psQueuedCommand script))

/-- The UTF-8 bytes of one Unicode scalar value. -/
def utf8Bytes (n : Nat) : List Nat :=
  if n < 0x80 then [n]
  else if n < 0x800 then [0xC0 + n / 64, 0x80 + n % 64]
  else if n < 0x10000 then [0xE0 + n / 4096, 0x80 + n / 64 % 64, 0x80 + n % 64]
  else [0xF0 + n / 262144, 0x80 + n / 4096 % 64, 0x80 + n / 64 % 64, 0x80 + n % 64]

/-- UTF-8 encoding of a scalar-value sequence. -/
def utf8Encode (cps : List Nat) : List Nat := cps.flatMap utf8Bytes

/-- The queued-entry shape the spec claims for the script endpoint: a fixed
tag, a colon, and the base64 of the UTF-8 bytes of the script — the format
the agent's `Run-PSB64` decodes for payloads tagged `__PSB64__:`
(`src/agent.ps1` lines 40-42). -/
def specTaggedEntry (tag script : String) : String :=
  tag ++ ":" ++ ⟨base64Encode (utf8Encode (script.data.map Char.toNat))⟩

/-- The 6-bit value of a base64 alphabet character. -/
def base64DigitVal (c : Char) : Nat :=
  let n := c.toNat
  if 65 ≤ n ∧ n ≤ 90 then n - 65
  else if 97 ≤ n ∧ n ≤ 122 then n - 71
  else if 48 ≤ n ∧ n ≤ 57 then n + 4
  else if n = 43 then 62
  else 63

/-- base64 decoding of well-padded input (the shape `base64Encode` emits). -/
def base64Decode : List Char → List Nat
  | c1 :: c2 :: c3 :: c4 :: rest =>
      let a := base64DigitVal c1
      let b := base64DigitVal c2
      if c3 = '=' then [a * 4 + b / 16]
      else
        let c := base64DigitVal c3
        if c4 = '=' then [a * 4 + b / 16, b % 16 * 16 + c / 4]
        else (a * 4 + b / 16) :: (b % 16 * 16 + c / 4) :: (c % 4 * 64 + base64DigitVal c4) ::
          base64Decode rest
  | _ => []

/-- Pair up little-endian bytes into UTF-16 code units. -/
def bytesToUnits : List Nat → List Nat
  | b0 :: b1 :: rest => (b0 + 256 * b1) :: bytesToUnits rest
  | _ => []

/-- Combine surrogate pairs back into scalar values. -/
def combineSurrogates : List Nat → List Nat
  | u :: rest =>
      if 0xD800 ≤ u ∧ u < 0xDC00 then
        match rest with
        | v :: rest2 => ((u - 0xD800) * 1024 + (v - 0xDC00) + 0x10000) :: combineSurrogates rest2
        | [] => []
      else u :: combineSurrogates rest
  | [] => []

/-- UTF-16LE byte-stream decoding back to Unicode scalar values. -/
def utf16leDecode (bs : List Nat) : List Nat := combineSurrogates (bytesToUnits bs)

theorem base64DigitVal_base64Char : ∀ n < 64, base64DigitVal (base64Char n) = n := by decide

theorem base64Char_ne_pad : ∀ n < 64, base64Char n ≠ '=' := by decide

theorem base64_roundTrip : ∀ l : List Nat, (∀ x ∈ l, x < 256) →
    base64Decode (base64Encode l) = l
  | [], _ => rfl
  | [a], h => by
      have ha : a < 256 := h a (by simp)
      simp only [base64Encode, base64Decode, if_true]
      rw [base64DigitVal_base64Char _ (by omega), base64DigitVal_base64Char _ (by omega)]
      congr 1
      omega
  | [a, b], h => by
      have ha : a < 256 := h a (by simp)
      have hb : b < 256 := h b (by simp)
      simp only [base64Encode, base64Decode]
      rw [if_neg (base64Char_ne_pad _ (by omega))]
      simp only [if_true]
      rw [base64DigitVal_base64Char _ (by omega), base64DigitVal_base64Char _ (by omega),
        base64DigitVal_base64Char _ (by omega)]
      congr 2
      · omega
      · omega
  | a :: b :: c :: rest, h => by
      have ha : a < 256 := h a (by simp)
      have hb : b < 256 := h b (by simp)
      have hc : c < 256 := h c (by simp)
      have ih := base64_roundTrip rest (fun x hx => h x (by simp [hx]))
      simp only [base64Encode, base64Decode]
      rw [if_neg (base64Char_ne_pad _ (by omega)), if_neg (base64Char_ne_pad _ (by omega)),
        base64DigitVal_base64Char _ (by omega), base64DigitVal_base64Char _ (by omega),
        base64DigitVal_base64Char _ (by omega), base64DigitVal_base64Char _ (by omega), ih]
      congr 3 <;> omega

theorem bytesToUnits_unit (u : Nat) (_hu : u < 0x10000) (bs : List Nat) :
    bytesToUnits (unitBytesLE u ++ bs) = u :: bytesToUnits bs := by
  simp only [unitBytesLE, List.cons_append, List.nil_append, bytesToUnits]
  congr 1
  omega

theorem utf16Units_lt (n : Nat) (hn : n < 0x110000) :
    ∀ u ∈ utf16Units n, u < 0x10000 := by
  intro u hu
  unfold utf16Units at hu
  by_cases h : n < 0x10000
  · rw [if_pos h] at hu
    simp only [List.mem_singleton] at hu
    omega
  · rw [if_neg h] at hu
    have h1 : (n - 0x10000) / 1024 < 1024 := by omega
    simp only [List.mem_cons, List.mem_singleton, List.not_mem_nil, or_false] at hu
    rcases hu with h2 | h2 <;> omega

theorem bytesToUnits_flat : ∀ us : List Nat, (∀ u ∈ us, u < 0x10000) →
    bytesToUnits (us.flatMap unitBytesLE) = us
  | [], _ => rfl
  | u :: us, h => by
      rw [List.flatMap_cons, bytesToUnits_unit u (h u (by simp)),
        bytesToUnits_flat us (fun x hx => h x (by simp [hx]))]

theorem combineSurrogates_cons (u : Nat) (hu : ¬ (0xD800 ≤ u ∧ u < 0xDC00)) (l : List Nat) :
    combineSurrogates (u :: l) = u :: combineSurrogates l := by
  rw [combineSurrogates.eq_def]
  simp only [if_neg hu]

theorem combineSurrogates_pair (u v : Nat) (hu : 0xD800 ≤ u ∧ u < 0xDC00) (l : List Nat) :
    combineSurrogates (u :: v :: l) =
      ((u - 0xD800) * 1024 + (v - 0xDC00) + 0x10000) :: combineSurrogates l := by
  rw [combineSurrogates.eq_def]
  simp only [if_pos hu]

theorem combineSurrogates_flat : ∀ cps : List Nat, (∀ c ∈ cps, Nat.isValidChar c) →
    combineSurrogates (cps.flatMap utf16Units) = cps
  | [], _ => rfl
  | c :: cps, h => by
      have hc : Nat.isValidChar c := h c (by simp)
      have ih := combineSurrogates_flat cps (fun x hx => h x (by simp [hx]))
      rw [List.flatMap_cons]
      by_cases hbmp : c < 0x10000
      · have hunits : utf16Units c = [c] := by rw [utf16Units, if_pos hbmp]
        have hns : ¬ (0xD800 ≤ c ∧ c < 0xDC00) := by
          rcases hc with h1 | ⟨h1, h2⟩ <;> omega
        rw [hunits, List.cons_append, List.nil_append, combineSurrogates_cons c hns, ih]
      · have hval : c < 0x110000 := by rcases hc with h1 | ⟨h1, h2⟩ <;> omega
        have hunits : utf16Units c =
            [0xD800 + (c - 0x10000) / 1024, 0xDC00 + (c - 0x10000) % 1024] := by
          rw [utf16Units, if_neg hbmp]
        have hdiv : (c - 0x10000) / 1024 < 1024 := by omega
        rw [hunits, List.cons_append, List.cons_append, List.nil_append,
          combineSurrogates_pair _ _ (by omega), ih]
        congr 1
        omega

/-- Every `Char.toNat` is a valid Unicode scalar value. -/
theorem char_toNat_valid (c : Char) : Nat.isValidChar c.toNat := c.valid

theorem utf16le_roundTrip (cps : List Nat) (h : ∀ c ∈ cps, Nat.isValidChar c) :
    utf16leDecode (utf16leBytes cps) = cps := by
  unfold utf16leDecode utf16leBytes
  rw [bytesToUnits_flat _ ?hu, combineSurrogates_flat _ h]
  case hu =>
    intro u hu
    rcases List.mem_flatMap.1 hu with ⟨c, hc, hcu⟩
    have hc' := h c hc
    refine utf16Units_lt c ?_ u hcu
    rcases hc' with h1 | ⟨h1, h2⟩ <;> omega

theorem utf16leBytes_lt (cps : List Nat) (h : ∀ c ∈ cps, c < 0x110000) :
    ∀ x ∈ utf16leBytes cps, x < 256 := by
  intro x hx
  rcases List.mem_flatMap.1 hx with ⟨u, hu, hxu⟩
  rcases List.mem_flatMap.1 hu with ⟨c, hc, hcu⟩
  have hulim : u < 0x10000 := utf16Units_lt c (h c hc) u hcu
  simp only [unitBytesLE, List.mem_cons, List.mem_singleton, List.not_mem_nil, or_false]
    at hxu
  rcases hxu with h' | h' <;> omega

theorem normalizeNewlines_eq_self : ∀ l : List Char, hasCRLF l = false →
    normalizeNewlines l = l
  | [], _ => rfl
  | [c], _ => rfl
  | c1 :: c2 :: rest, h => by
      rw [hasCRLF] at h
      simp only [Bool.or_eq_false_iff, decide_eq_false_iff_not] at h
      rw [normalizeNewlines, if_neg h.1, normalizeNewlines_eq_self (c2 :: rest) h.2]

theorem string_data_append (a b : String) : (a ++ b).data = a.data ++ b.data := rfl

/-- Claim C1 (amended): `POST /api/ps` enqueues for the device the fixed
`powershell … -EncodedCommand ` head followed directly (no tag, no colon) by
the base64 of the UTF-16LE bytes of the CRLF-normalized script;
base64-decoding that block and UTF-16LE-decoding the bytes round-trips to the
normalized script, hence to the script exactly whenever it contains no CR LF
pair. -/
theorem apiPs_roundTrip (qs : Queues) (id s : String) (hid : id ≠ "") (hs : s ≠ "")
    (hq : mapGet qs id = none ∨ mapGet qs id = some []) :
    mapGet (apiPs qs id s).2 id = some [psQueuedCommand s] ∧
    psQueuedCommand s = psCommandHead ++ psEncodedCommand s ∧
    utf16leDecode (base64Decode (psEncodedCommand s).data) =
      (normalizeNewlines s.data).map Char.toNat ∧
    (hasCRLF s.data = false →
      utf16leDecode (base64Decode (psEncodedCommand s).data) = s.data.map Char.toNat) := by
  have hdec : utf16leDecode (base64Decode (psEncodedCommand s).data) =
      (normalizeNewlines s.data).map Char.toNat := by
    show utf16leDecode (base64Decode (base64Encode
      (utf16leBytes ((normalizeNewlines s.data).map Char.toNat)))) = _
    rw [base64_roundTrip _ (utf16leBytes_lt _ ?hcp), utf16le_roundTrip _ ?hv]
    case hv =>
      intro c hc
      rcases List.mem_map.1 hc with ⟨ch, _, rfl⟩
      exact char_toNat_valid ch
    case hcp =>
      intro c hc
      rcases List.mem_map.1 hc with ⟨ch, _, rfl⟩
      have hch := char_toNat_valid ch
      rcases hch with h1 | ⟨h1, h2⟩ <;> omega
  refine ⟨?_, rfl, hdec, ?_⟩
  · unfold apiPs
    rw [if_neg (by tauto), enqueue_get_self]
    rcases hq with hq | hq <;> rw [hq] <;> rfl
  · intro hcr
    rw [hdec, normalizeNewlines_eq_self _ hcr]

/-- Witness for the amended C1: the spec's own scenario, script
`"Get-Date"` for device `"PC1"`. -/
theorem apiPs_roundTrip_witness :
    mapGet (apiPs [] "PC1" "Get-Date").2 "PC1" = some [psQueuedCommand "Get-Date"] ∧
    psQueuedCommand "Get-Date" = psCommandHead ++ psEncodedCommand "Get-Date" ∧
    utf16leDecode (base64Decode (psEncodedCommand "Get-Date").data) =
      (normalizeNewlines "Get-Date".data).map Char.toNat ∧
    (hasCRLF "Get-Date".data = false →
      utf16leDecode (base64Decode (psEncodedCommand "Get-Date").data) =
        "Get-Date".data.map Char.toNat) :=
  apiPs_roundTrip [] "PC1" "Get-Date" (by decide) (by decide) (Or.inl rfl)

/-- Counterexample to C1 as stated: on the spec's own scenario (`"Get-Date"`
posted to `/api/ps`), the queued entry is the `-EncodedCommand` text, which
contains no colon at all; hence it does not equal `tag ++ ":" ++
base64(UTF-8 bytes of the script)` for any tag whatsoever — in particular
not the agent's `__PSB64__` tag — and its base64 block carries UTF-16LE
bytes, not UTF-8. -/
theorem apiPs_counterexample :
    mapGet (apiPs [] "PC1" "Get-Date").2 "PC1" = some [psQueuedCommand "Get-Date"] ∧
    ¬ ∃ tag : String, psQueuedCommand "Get-Date" = specTaggedEntry tag "Get-Date" := by
  constructor
  · rw [apiPs, if_neg (by decide), enqueue_get_self]
    rfl
  · rintro ⟨tag, htag⟩
    have hcolon : (":" : String).data = [':'] := rfl
    have hmem : ':' ∈ (psQueuedCommand "Get-Date").data := by
      rw [htag]
      show ':' ∈ (tag ++ ":" ++ (⟨base64Encode (utf8Encode
        ("Get-Date".data.map Char.toNat))⟩ : String)).data
      rw [string_data_append, string_data_append, hcolon]
      simp
    have hnone : ':' ∉ (psQueuedCommand "Get-Date").data := by decide
    exact hnone hmem

end DeviceHub
